import Mathlib

/-!
Shallow embedding of the keg fetch-and-cache layer (`keg/__init__.py`,
`keg/cdn.py`) and proofs about it.

Modelling conventions:
* byte strings are `List Nat`;
* the filesystem and other keyed stores are association lists with
  shadowing insert (`assocSet` conses, `assocGet` returns the newest
  binding, `assocErase` removes every binding of a key);
* Python string slicing, `str.lstrip("/")`, `str.strip("/")`,
  `str.startswith` / `str.endswith` and `os.path.join` (posixpath,
  two arguments) are reproduced as pure functions on `String`;
* a readable HTTP body is its list of not-yet-consumed bytes;
* fallible operations (opening a missing file, a failing `assert`)
  return `Option`.
-/

/-- Byte strings. -/
abbrev Bytes := List Nat

/-- Association-list store used for the filesystem and other keyed maps. -/
abbrev Assoc (α β : Type) := List (α × β)

/-- Lookup of the newest binding of a key. -/
def assocGet {α β : Type} [DecidableEq α] : Assoc α β → α → Option β
  | [], _ => none
  | (k, v) :: rest, key => if key = k then some v else assocGet rest key

/-- Shadowing insert. -/
def assocSet {α β : Type} [DecidableEq α] (l : Assoc α β) (k : α) (v : β) : Assoc α β :=
  (k, v) :: l

/-- Removal of every binding of a key. -/
def assocErase {α β : Type} [DecidableEq α] (l : Assoc α β) (k : α) : Assoc α β :=
  l.filter (fun p => decide (p.1 ≠ k))

/-- The filesystem: a map from paths to fully written file contents. -/
abbrev FS := Assoc String Bytes

theorem assocGet_set_same {α β : Type} [DecidableEq α] (l : Assoc α β) (k : α) (v : β) :
    assocGet (assocSet l k v) k = some v := by
  simp [assocGet, assocSet]

theorem assocGet_set_other {α β : Type} [DecidableEq α] (l : Assoc α β) (k k' : α) (v : β)
    (h : k' ≠ k) : assocGet (assocSet l k v) k' = assocGet l k' := by
  simp [assocGet, assocSet, h]

theorem assocGet_erase_same {α β : Type} [DecidableEq α] (l : Assoc α β) (k : α) :
    assocGet (assocErase l k) k = none := by
  induction l with
  | nil => rfl
  | cons p rest ih =>
    by_cases hp : p.1 = k
    · simpa [assocErase, List.filter, hp] using ih
    · simpa [assocErase, List.filter, hp, assocGet, Ne.symm hp] using ih

theorem assocGet_erase_other {α β : Type} [DecidableEq α] (l : Assoc α β) (k k' : α)
    (h : k' ≠ k) : assocGet (assocErase l k) k' = assocGet l k' := by
  induction l with
  | nil => rfl
  | cons p rest ih =>
    by_cases hp : p.1 = k
    · simpa [assocErase, List.filter, hp, assocGet, h] using ih
    · by_cases hq : k' = p.1
      · simp [assocErase, List.filter, hp, assocGet, hq]
      · simpa [assocErase, List.filter, hp, assocGet, hq] using ih

/-- Python slice `s[a:b]` for non-negative bounds. -/
def pySlice (s : String) (a b : Nat) : String :=
  String.mk ((s.data.drop a).take (b - a))

/-- Source `keg/cdn.py`, `partition_hash`: returns
`f"{hash[0:2]}/{hash[2:4]}/{hash}"`. -/
def partition_hash (hash : String) : String :=
  pySlice hash 0 2 ++ "/" ++ pySlice hash 2 4 ++ "/" ++ hash

/-- Python `s.lstrip("/")`: drop every leading `'/'`. -/
def pyLstripSlash (s : String) : String :=
  String.mk (s.data.dropWhile (fun c => decide (c = '/')))

/-- Python `s.strip("/")`: drop every leading and trailing `'/'`. -/
def pyStripSlash (s : String) : String :=
  String.mk
    (((s.data.dropWhile (fun c => decide (c = '/'))).reverse.dropWhile
      (fun c => decide (c = '/'))).reverse)

/-- Python `s.startswith("/")`: the first character is `'/'`. -/
def pyStartsWithSlash (s : String) : Bool :=
  match s.data with
  | [] => false
  | c :: _ => decide (c = '/')

/-- Python `s.endswith("/")`: the last character is `'/'`. -/
def pyEndsWithSlash (s : String) : Bool :=
  match s.data.getLast? with
  | none => false
  | some c => decide (c = '/')

/-- Two-argument posixpath `os.path.join`. -/
def osPathJoin (a b : String) : String :=
  if pyStartsWithSlash b then b
  else if a = "" then a ++ b
  else if pyEndsWithSlash a then a ++ b
  else a ++ "/" ++ b

/-- Source `keg/cdn.py`, `LocalCDN.__init__`: holds the base directory. -/
structure LocalCDN where
  base_dir : String
deriving Repr, DecidableEq

/-- Source `keg/cdn.py`, `LocalCDN.get_full_path`:
`os.path.join(self.base_dir, path.lstrip("/"))`. -/
def LocalCDN.get_full_path (c : LocalCDN) (path : String) : String :=
  osPathJoin c.base_dir (pyLstripSlash path)

/-- Source `keg/cdn.py`, `LocalCDN.get_item`: `open(self.get_full_path(path), "rb")`;
a missing file is `none`. -/
def LocalCDN.get_item (c : LocalCDN) (fs : FS) (path : String) : Option Bytes :=
  assocGet fs (c.get_full_path path)

/-- Source `keg/cdn.py`, `LocalCDN.exists`: `os.path.exists(self.get_full_path(path))`.
Named `exists'` because `exists` is reserved in Lean. -/
def LocalCDN.exists' (c : LocalCDN) (fs : FS) (path : String) : Bool :=
  (assocGet fs (c.get_full_path path)).isSome

theorem pyLstripSlash_slash_append (p : String) :
    pyLstripSlash ("/" ++ p) = pyLstripSlash p := by
  simp [pyLstripSlash, String.data_append]

theorem pyLstripSlash_no_leading_slash (p : String) :
    pyStartsWithSlash (pyLstripSlash p) = false := by
  unfold pyLstripSlash pyStartsWithSlash
  induction p.data with
  | nil => rfl
  | cons c t ih =>
    by_cases hc : c = '/'
    · simpa [List.dropWhile, hc] using ih
    · simp [List.dropWhile, hc]

/-- A string whose first character is not `'/'` is unchanged by `lstrip("/")`. -/
theorem pyLstripSlash_of_head_ne (p : String) (c : Char) (t : List Char)
    (hd : p.data = c :: t) (hc : c ≠ '/') : pyLstripSlash p = p := by
  apply String.ext
  simp [pyLstripSlash, hd, List.dropWhile, hc]

/-- C6: for every well-formed key of length at least 4, `partition_hash key`
equals `key[0:2] ++ "/" ++ key[2:4] ++ "/" ++ key`; the function is pure and
total on such keys. -/
theorem partition_hash_long_key (key : String) (a b c d : Char) (rest : List Char)
    (h : key.data = a :: b :: c :: d :: rest) :
    partition_hash key = String.mk [a, b] ++ "/" ++ String.mk [c, d] ++ "/" ++ key := by
  unfold partition_hash pySlice
  rw [h]
  rfl

theorem partition_hash_long_key_witness :
    partition_hash "abcdef0123" = "ab/cd/abcdef0123" := by
  have h := partition_hash_long_key "abcdef0123" 'a' 'b' 'c' 'd'
    ['e', 'f', '0', '1', '2', '3'] rfl
  exact h.trans (by decide)

/-- C9: `partition_hash` is total with no length precondition; on keys shorter
than four characters it still builds `f"{key[0:2]}/{key[2:4]}/{key}"` from the
available characters instead of failing: a key of length at most 2 yields
`key ++ "//" ++ key` (so the empty key yields `"//"`), and a three-character
key yields `key[0:2] ++ "/" ++ key[2:3] ++ "/" ++ key`. -/
theorem partition_hash_short_key_total :
    (∀ key : String, key.length ≤ 2 → partition_hash key = key ++ "//" ++ key)
    ∧ (∀ (key : String) (a b c : Char), key.data = [a, b, c] →
        partition_hash key = String.mk [a, b] ++ "/" ++ String.mk [c] ++ "/" ++ key) := by
  constructor
  · intro key hlen
    have hlen' : key.data.length ≤ 2 := hlen
    unfold partition_hash pySlice
    rw [List.drop_zero, Nat.sub_zero, List.take_of_length_le hlen',
      List.drop_eq_nil_of_le hlen']
    apply String.ext
    simp [String.data_append]
  · intro key a b c h
    unfold partition_hash pySlice
    rw [h]
    rfl

theorem partition_hash_short_key_total_witness :
    partition_hash "" = "//" ∧ partition_hash "abc" = "ab/c/abc" := by
  constructor
  · exact (partition_hash_short_key_total.1 "" (by decide)).trans (by decide)
  · exact (partition_hash_short_key_total.2 "abc" 'a' 'b' 'c' rfl).trans (by decide)

/-- C10: `LocalCDN` resolves every path by joining the base directory with the
path stripped of all leading `'/'` characters, so `get_full_path`, `get_item`
and the existence check treat `"/x"` and `"x"` identically, and a leading-slash
path is always resolved under the base directory (the result is the base
directory followed by some suffix, never the bare absolute path). -/
theorem local_cdn_strips_leading_slashes (c : LocalCDN) (fs : FS) (p : String) :
    (c.get_full_path ("/" ++ p) = c.get_full_path p
      ∧ c.get_item fs ("/" ++ p) = c.get_item fs p
      ∧ c.exists' fs ("/" ++ p) = c.exists' fs p)
    ∧ ∃ t, c.get_full_path p = c.base_dir ++ t := by
  have hfull : c.get_full_path ("/" ++ p) = c.get_full_path p := by
    unfold LocalCDN.get_full_path
    rw [pyLstripSlash_slash_append]
  refine ⟨⟨hfull, ?_, ?_⟩, ?_⟩
  · simp [LocalCDN.get_item, hfull]
  · simp [LocalCDN.exists', hfull]
  · unfold LocalCDN.get_full_path osPathJoin
    simp only [pyLstripSlash_no_leading_slash, Bool.false_eq_true, if_false]
    by_cases h0 : c.base_dir = ""
    · exact ⟨pyLstripSlash p, by simp [h0]⟩
    · by_cases h1 : pyEndsWithSlash c.base_dir = true
      · exact ⟨pyLstripSlash p, by simp [h0, h1]⟩
      · exact ⟨"/" ++ pyLstripSlash p, by simp [h0, h1, String.append_assoc]⟩

/-- Source `keg/cdn.py`, `HTTPCacheWrapper.__init__` state: the upstream
stream (its not-yet-consumed bytes and whether it was closed), the
destination path, the temp path `path + ".keg_temp"` and the temp file
handle's open flag. -/
structure HTTPCacheWrapper where
  obj_remaining : Bytes
  obj_closed : Bool
  real_path : String
  temp_path : String
  cache_open : Bool
deriving Repr, DecidableEq

/-- Source `keg/cdn.py`, `HTTPCacheWrapper.__init__`: record the paths and
open the temp file `path + ".keg_temp"` for writing (truncating it to
empty). Directory creation has no observable effect in the flat-map
filesystem model. -/
def HTTPCacheWrapper.init (obj : Bytes) (path : String) (fs : FS) :
    HTTPCacheWrapper × FS :=
  ({ obj_remaining := obj, obj_closed := false, real_path := path,
     temp_path := path ++ ".keg_temp", cache_open := true },
   assocSet fs (path ++ ".keg_temp") [])

/-- Source `keg/cdn.py`, `HTTPCacheWrapper.read`: pull from the upstream
stream (`-1`, modelled as `none`, reads everything), append the bytes to the
temp file when non-empty, and return them. -/
def HTTPCacheWrapper.read (w : HTTPCacheWrapper) (fs : FS) (n : Option Nat) :
    Bytes × HTTPCacheWrapper × FS :=
  let ret : Bytes :=
    match n with
    | none => w.obj_remaining
    | some k => w.obj_remaining.take k
  let w' : HTTPCacheWrapper :=
    { w with obj_remaining :=
        match n with
        | none => []
        | some k => w.obj_remaining.drop k }
  if ret = [] then (ret, w', fs)
  else (ret, w', assocSet fs w.temp_path ((assocGet fs w.temp_path).getD [] ++ ret))

/-- Source `keg/cdn.py`, `HTTPCacheWrapper.close`: drain the remaining
upstream bytes into the temp file, close the temp file, rename it onto the
destination path, then close the upstream stream. -/
def HTTPCacheWrapper.close (w : HTTPCacheWrapper) (fs : FS) :
    HTTPCacheWrapper × FS :=
  let r := HTTPCacheWrapper.read w fs none
  let w1 : HTTPCacheWrapper := { r.2.1 with cache_open := false }
  let content := (assocGet r.2.2 w1.temp_path).getD []
  let fs2 := assocSet (assocErase r.2.2 w1.temp_path) w1.real_path content
  ({ w1 with obj_closed := true }, fs2)

/-- Run a sequence of `read` calls, collecting the returned chunks. -/
def HTTPCacheWrapper.runReads (w : HTTPCacheWrapper) (fs : FS) :
    List (Option Nat) → List Bytes × HTTPCacheWrapper × FS
  | [] => ([], w, fs)
  | n :: ns =>
    let r := HTTPCacheWrapper.read w fs n
    let t := HTTPCacheWrapper.runReads r.2.1 r.2.2 ns
    (r.1 :: t.1, t.2.1, t.2.2)

theorem keg_temp_ne (s : String) : s ++ ".keg_temp" ≠ s := by
  intro h
  have hd : (s ++ ".keg_temp").data = s.data := congrArg String.data h
  rw [String.data_append] at hd
  have hlen := congrArg List.length hd
  rw [List.length_append] at hlen
  have h9 : (".keg_temp").data.length = 9 := rfl
  rw [h9] at hlen
  omega

theorem HTTPCacheWrapper.read_step (w : HTTPCacheWrapper) (fs : FS) (n : Option Nat)
    (written : Bytes) (hw : assocGet fs w.temp_path = some written) :
    (HTTPCacheWrapper.read w fs n).1 ++ (HTTPCacheWrapper.read w fs n).2.1.obj_remaining
        = w.obj_remaining
    ∧ (HTTPCacheWrapper.read w fs n).2.1.temp_path = w.temp_path
    ∧ (HTTPCacheWrapper.read w fs n).2.1.real_path = w.real_path
    ∧ assocGet (HTTPCacheWrapper.read w fs n).2.2 w.temp_path
        = some (written ++ (HTTPCacheWrapper.read w fs n).1)
    ∧ ∀ k, k ≠ w.temp_path →
        assocGet (HTTPCacheWrapper.read w fs n).2.2 k = assocGet fs k := by
  cases n with
  | none =>
    by_cases h : w.obj_remaining = []
    · simp [HTTPCacheWrapper.read, h, hw]
    · refine ⟨by simp [HTTPCacheWrapper.read, h], by simp [HTTPCacheWrapper.read, h],
        by simp [HTTPCacheWrapper.read, h], ?_, ?_⟩
      · simp [HTTPCacheWrapper.read, h, hw, assocGet_set_same]
      · intro k hk
        simp only [HTTPCacheWrapper.read, if_neg h]
        exact assocGet_set_other _ _ _ _ hk
  | some m =>
    by_cases h : w.obj_remaining.take m = []
    · have hdrop : w.obj_remaining.drop m = w.obj_remaining := by
        rcases List.take_eq_nil_iff.mp h with h0 | h0
        · simp [h0]
        · simp [h0]
      simp [HTTPCacheWrapper.read, h, hw, hdrop]
    · refine ⟨by simp [HTTPCacheWrapper.read, h, List.take_append_drop],
        by simp [HTTPCacheWrapper.read, h], by simp [HTTPCacheWrapper.read, h], ?_, ?_⟩
      · simp [HTTPCacheWrapper.read, h, hw, assocGet_set_same]
      · intro k hk
        simp only [HTTPCacheWrapper.read, if_neg h]
        exact assocGet_set_other _ _ _ _ hk

theorem HTTPCacheWrapper.runReads_inv (reads : List (Option Nat)) :
    ∀ (w : HTTPCacheWrapper) (fs : FS) (written : Bytes),
    assocGet fs w.temp_path = some written →
    ((HTTPCacheWrapper.runReads w fs reads).1.flatten
        ++ (HTTPCacheWrapper.runReads w fs reads).2.1.obj_remaining = w.obj_remaining)
    ∧ (HTTPCacheWrapper.runReads w fs reads).2.1.temp_path = w.temp_path
    ∧ (HTTPCacheWrapper.runReads w fs reads).2.1.real_path = w.real_path
    ∧ assocGet (HTTPCacheWrapper.runReads w fs reads).2.2 w.temp_path
        = some (written ++ (HTTPCacheWrapper.runReads w fs reads).1.flatten)
    ∧ ∀ k, k ≠ w.temp_path →
        assocGet (HTTPCacheWrapper.runReads w fs reads).2.2 k = assocGet fs k := by
  induction reads with
  | nil =>
    intro w fs written hw
    simp [HTTPCacheWrapper.runReads, hw]
  | cons n ns ih =>
    intro w fs written hw
    obtain ⟨h1, h2, h3, h4, h5⟩ := HTTPCacheWrapper.read_step w fs n written hw
    have hw' : assocGet (HTTPCacheWrapper.read w fs n).2.2
        (HTTPCacheWrapper.read w fs n).2.1.temp_path
        = some (written ++ (HTTPCacheWrapper.read w fs n).1) := by rw [h2]; exact h4
    obtain ⟨g1, g2, g3, g4, g5⟩ := ih (HTTPCacheWrapper.read w fs n).2.1
      (HTTPCacheWrapper.read w fs n).2.2 (written ++ (HTTPCacheWrapper.read w fs n).1) hw'
    refine ⟨?_, ?_, ?_, ?_, ?_⟩
    · simp only [HTTPCacheWrapper.runReads, List.flatten_cons, List.append_assoc]
      rw [g1, h1]
    · simp only [HTTPCacheWrapper.runReads]
      rw [g2, h2]
    · simp only [HTTPCacheWrapper.runReads]
      rw [g3, h3]
    · simp only [HTTPCacheWrapper.runReads, List.flatten_cons]
      rw [← h2]
      rw [g4]
      simp [List.append_assoc]
    · intro k hk
      simp only [HTTPCacheWrapper.runReads]
      rw [g5 k (by rw [h2]; exact hk)]
      exact h5 k hk

theorem HTTPCacheWrapper.close_spec (w : HTTPCacheWrapper) (fs : FS) (written : Bytes)
    (hw : assocGet fs w.temp_path = some written)
    (hne : w.temp_path ≠ w.real_path) :
    assocGet (HTTPCacheWrapper.close w fs).2 w.real_path
        = some (written ++ w.obj_remaining)
    ∧ assocGet (HTTPCacheWrapper.close w fs).2 w.temp_path = none
    ∧ (HTTPCacheWrapper.close w fs).1.obj_closed = true
    ∧ (HTTPCacheWrapper.close w fs).1.cache_open = false
    ∧ ∀ k, k ≠ w.temp_path → k ≠ w.real_path →
        assocGet (HTTPCacheWrapper.close w fs).2 k = assocGet fs k := by
  by_cases h : w.obj_remaining = []
  · refine ⟨?_, ?_, rfl, rfl, ?_⟩
    · simp [HTTPCacheWrapper.close, HTTPCacheWrapper.read, h, hw, assocGet_set_same]
    · simp only [HTTPCacheWrapper.close, HTTPCacheWrapper.read, if_pos h]
      rw [assocGet_set_other _ _ _ _ hne]
      exact assocGet_erase_same _ _
    · intro k hk1 hk2
      simp only [HTTPCacheWrapper.close, HTTPCacheWrapper.read, if_pos h]
      rw [assocGet_set_other _ _ _ _ hk2]
      exact assocGet_erase_other _ _ _ hk1
  · refine ⟨?_, ?_, rfl, rfl, ?_⟩
    · simp [HTTPCacheWrapper.close, HTTPCacheWrapper.read, h, hw,
        assocGet_set_same, assocGet_set_other]
    · simp only [HTTPCacheWrapper.close, HTTPCacheWrapper.read, if_neg h]
      rw [assocGet_set_other _ _ _ _ hne]
      exact assocGet_erase_same _ _
    · intro k hk1 hk2
      simp only [HTTPCacheWrapper.close, HTTPCacheWrapper.read, if_neg h]
      rw [assocGet_set_other _ _ _ _ hk2]
      rw [assocGet_erase_other _ _ _ hk1]
      exact assocGet_set_other _ _ _ _ hk1

/-- C4: every `read` call returns exactly the bytes pulled from the upstream
stream and appends them to the temp file before returning (the temp file
always holds the concatenation of all returned chunks, and those chunks
followed by the unread remainder reconstruct the whole upstream sequence);
`close` drains the rest, renames the temp file onto the destination and
closes the upstream, so after any sequence of reads followed by `close` the
destination holds the entire upstream byte sequence. -/
theorem http_cache_wrapper_tee_publish (obj : Bytes) (path : String) (fs : FS)
    (reads : List (Option Nat)) :
    (HTTPCacheWrapper.runReads (HTTPCacheWrapper.init obj path fs).1
        (HTTPCacheWrapper.init obj path fs).2 reads).1.flatten
      ++ (HTTPCacheWrapper.runReads (HTTPCacheWrapper.init obj path fs).1
        (HTTPCacheWrapper.init obj path fs).2 reads).2.1.obj_remaining = obj
    ∧ assocGet (HTTPCacheWrapper.runReads (HTTPCacheWrapper.init obj path fs).1
        (HTTPCacheWrapper.init obj path fs).2 reads).2.2 (path ++ ".keg_temp")
      = some (HTTPCacheWrapper.runReads (HTTPCacheWrapper.init obj path fs).1
        (HTTPCacheWrapper.init obj path fs).2 reads).1.flatten
    ∧ assocGet (HTTPCacheWrapper.close
        (HTTPCacheWrapper.runReads (HTTPCacheWrapper.init obj path fs).1
          (HTTPCacheWrapper.init obj path fs).2 reads).2.1
        (HTTPCacheWrapper.runReads (HTTPCacheWrapper.init obj path fs).1
          (HTTPCacheWrapper.init obj path fs).2 reads).2.2).2 path = some obj
    ∧ assocGet (HTTPCacheWrapper.close
        (HTTPCacheWrapper.runReads (HTTPCacheWrapper.init obj path fs).1
          (HTTPCacheWrapper.init obj path fs).2 reads).2.1
        (HTTPCacheWrapper.runReads (HTTPCacheWrapper.init obj path fs).1
          (HTTPCacheWrapper.init obj path fs).2 reads).2.2).2 (path ++ ".keg_temp") = none
    ∧ (HTTPCacheWrapper.close
        (HTTPCacheWrapper.runReads (HTTPCacheWrapper.init obj path fs).1
          (HTTPCacheWrapper.init obj path fs).2 reads).2.1
        (HTTPCacheWrapper.runReads (HTTPCacheWrapper.init obj path fs).1
          (HTTPCacheWrapper.init obj path fs).2 reads).2.2).1.obj_closed = true
    ∧ (HTTPCacheWrapper.close
        (HTTPCacheWrapper.runReads (HTTPCacheWrapper.init obj path fs).1
          (HTTPCacheWrapper.init obj path fs).2 reads).2.1
        (HTTPCacheWrapper.runReads (HTTPCacheWrapper.init obj path fs).1
          (HTTPCacheWrapper.init obj path fs).2 reads).2.2).1.cache_open = false := by
  have hinit : assocGet (HTTPCacheWrapper.init obj path fs).2
      (HTTPCacheWrapper.init obj path fs).1.temp_path = some [] := by
    simp [HTTPCacheWrapper.init, assocGet_set_same]
  obtain ⟨g1, g2, g3, g4, g5⟩ := HTTPCacheWrapper.runReads_inv reads
    (HTTPCacheWrapper.init obj path fs).1 (HTTPCacheWrapper.init obj path fs).2 [] hinit
  have htemp : (HTTPCacheWrapper.init obj path fs).1.temp_path = path ++ ".keg_temp" := rfl
  have hreal : (HTTPCacheWrapper.init obj path fs).1.real_path = path := rfl
  have hobj : (HTTPCacheWrapper.init obj path fs).1.obj_remaining = obj := rfl
  rw [htemp] at g2 g4
  rw [hreal] at g3
  rw [hobj] at g1
  simp only [List.nil_append] at g4
  have hw' : assocGet (HTTPCacheWrapper.runReads (HTTPCacheWrapper.init obj path fs).1
      (HTTPCacheWrapper.init obj path fs).2 reads).2.2
      (HTTPCacheWrapper.runReads (HTTPCacheWrapper.init obj path fs).1
        (HTTPCacheWrapper.init obj path fs).2 reads).2.1.temp_path
      = some (HTTPCacheWrapper.runReads (HTTPCacheWrapper.init obj path fs).1
        (HTTPCacheWrapper.init obj path fs).2 reads).1.flatten := by
    rw [g2]; exact g4
  have hne : (HTTPCacheWrapper.runReads (HTTPCacheWrapper.init obj path fs).1
      (HTTPCacheWrapper.init obj path fs).2 reads).2.1.temp_path
      ≠ (HTTPCacheWrapper.runReads (HTTPCacheWrapper.init obj path fs).1
        (HTTPCacheWrapper.init obj path fs).2 reads).2.1.real_path := by
    rw [g2, g3]; exact keg_temp_ne path
  obtain ⟨c1, c2, c3, c4, _⟩ := HTTPCacheWrapper.close_spec _ _ _ hw' hne
  rw [g3] at c1
  rw [g2] at c2
  rw [g1] at c1
  exact ⟨g1, g4, c1, c2, c3, c4⟩

/-- C2: if the writer is released without completing drain-to-rename (a
fault after any number of reads, before the rename), the destination path
does not exist (given that it did not exist beforehand) while the temp
artifact `path ++ ".keg_temp"` does exist; after a normal `close` the
destination exists with the fully written upstream content and no temp
artifact remains. -/
theorem http_cache_wrapper_atomic_publish (obj : Bytes) (path : String) (fs : FS)
    (reads : List (Option Nat)) (h : assocGet fs path = none) :
    assocGet (HTTPCacheWrapper.runReads (HTTPCacheWrapper.init obj path fs).1
        (HTTPCacheWrapper.init obj path fs).2 reads).2.2 path = none
    ∧ (assocGet (HTTPCacheWrapper.runReads (HTTPCacheWrapper.init obj path fs).1
        (HTTPCacheWrapper.init obj path fs).2 reads).2.2 (path ++ ".keg_temp")).isSome = true
    ∧ assocGet (HTTPCacheWrapper.close
        (HTTPCacheWrapper.runReads (HTTPCacheWrapper.init obj path fs).1
          (HTTPCacheWrapper.init obj path fs).2 reads).2.1
        (HTTPCacheWrapper.runReads (HTTPCacheWrapper.init obj path fs).1
          (HTTPCacheWrapper.init obj path fs).2 reads).2.2).2 path = some obj
    ∧ assocGet (HTTPCacheWrapper.close
        (HTTPCacheWrapper.runReads (HTTPCacheWrapper.init obj path fs).1
          (HTTPCacheWrapper.init obj path fs).2 reads).2.1
        (HTTPCacheWrapper.runReads (HTTPCacheWrapper.init obj path fs).1
          (HTTPCacheWrapper.init obj path fs).2 reads).2.2).2
        (path ++ ".keg_temp") = none := by
  obtain ⟨g1, g2, g3, g4, g5, g6⟩ := http_cache_wrapper_tee_publish obj path fs reads
  refine ⟨?_, ?_, g3, g4⟩
  · have hpath : path ≠ path ++ ".keg_temp" := fun hp => keg_temp_ne path hp.symm
    have hinit : assocGet (HTTPCacheWrapper.init obj path fs).2
        (HTTPCacheWrapper.init obj path fs).1.temp_path = some [] := by
      simp [HTTPCacheWrapper.init, assocGet_set_same]
    obtain ⟨_, _, _, _, k5⟩ := HTTPCacheWrapper.runReads_inv reads
      (HTTPCacheWrapper.init obj path fs).1 (HTTPCacheWrapper.init obj path fs).2 [] hinit
    rw [k5 path hpath]
    rw [show (HTTPCacheWrapper.init obj path fs).2
        = assocSet fs (path ++ ".keg_temp") [] from rfl]
    rw [assocGet_set_other _ _ _ _ hpath]
    exact h
  · rw [g2]
    rfl

theorem http_cache_wrapper_atomic_publish_witness :
    assocGet ([] : FS) "p" = none
    ∧ (assocGet (HTTPCacheWrapper.runReads (HTTPCacheWrapper.init [1, 2] "p" []).1
          (HTTPCacheWrapper.init [1, 2] "p" []).2 [some 1]).2.2 "p" = none
      ∧ (assocGet (HTTPCacheWrapper.runReads (HTTPCacheWrapper.init [1, 2] "p" []).1
          (HTTPCacheWrapper.init [1, 2] "p" []).2 [some 1]).2.2 ("p" ++ ".keg_temp")).isSome
            = true
      ∧ assocGet (HTTPCacheWrapper.close
          (HTTPCacheWrapper.runReads (HTTPCacheWrapper.init [1, 2] "p" []).1
            (HTTPCacheWrapper.init [1, 2] "p" []).2 [some 1]).2.1
          (HTTPCacheWrapper.runReads (HTTPCacheWrapper.init [1, 2] "p" []).1
            (HTTPCacheWrapper.init [1, 2] "p" []).2 [some 1]).2.2).2 "p" = some [1, 2]
      ∧ assocGet (HTTPCacheWrapper.close
          (HTTPCacheWrapper.runReads (HTTPCacheWrapper.init [1, 2] "p" []).1
            (HTTPCacheWrapper.init [1, 2] "p" []).2 [some 1]).2.1
          (HTTPCacheWrapper.runReads (HTTPCacheWrapper.init [1, 2] "p" []).1
            (HTTPCacheWrapper.init [1, 2] "p" []).2 [some 1]).2.2).2
          ("p" ++ ".keg_temp") = none) :=
  ⟨rfl, http_cache_wrapper_atomic_publish [1, 2] "p" [] [some 1] rfl⟩

/-- A CDN descriptor as consumed by `RemoteCDN.__init__`: the candidate
server list and the shared path prefix. -/
structure CDNDescriptor where
  all_servers : List String
  path : String
deriving Repr, DecidableEq

/-- Source `keg/cdn.py`, `RemoteCDN` state after construction: the selected
server and the path prefix. -/
structure RemoteCDN where
  server : String
  path : String
deriving Repr, DecidableEq

/-- Source `keg/cdn.py`, `RemoteCDN.__init__`: `assert cdn.all_servers`
fails on an empty list (modelled as `none`); otherwise the first server is
selected. -/
def RemoteCDN.init (cdn : CDNDescriptor) : Option RemoteCDN :=
  match cdn.all_servers with
  | [] => none
  | s :: _ => some { server := s, path := cdn.path }

/-- The network: response bodies by URL, plus the log of issued GETs. -/
structure Net where
  bodies : FS
  requests : List String
deriving Repr, DecidableEq

/-- Source `keg/cdn.py`, `RemoteCDN.get_item`: one streaming GET of
`f"{self.server}/{self.path}{path}"`; the body is returned as-is (no status
validation, no retry). -/
def RemoteCDN.get_item (c : RemoteCDN) (path : String) (net : Net) : Bytes × Net :=
  ((assocGet net.bodies (c.server ++ "/" ++ c.path ++ path)).getD [],
   { net with requests := net.requests ++ [c.server ++ "/" ++ c.path ++ path] })

/-- C7: constructing a `RemoteCDN` from a descriptor with an empty server
list fails at construction time; from a non-empty descriptor it selects the
first server, and `get_item` issues exactly one GET to
`{server}/{cdn_path}{path}` with no retry. -/
theorem remote_cdn_first_server_single_get :
    (∀ p : String, RemoteCDN.init { all_servers := [], path := p } = none)
    ∧ (∀ (s : String) (rest : List String) (p : String),
        RemoteCDN.init { all_servers := s :: rest, path := p }
          = some { server := s, path := p })
    ∧ (∀ (c : RemoteCDN) (p : String) (net : Net),
        (RemoteCDN.get_item c p net).2.requests
          = net.requests ++ [c.server ++ "/" ++ c.path ++ p]
        ∧ (RemoteCDN.get_item c p net).2.bodies = net.bodies) := by
  exact ⟨fun _ => rfl, fun _ _ _ => rfl, fun _ _ _ => ⟨rfl, rfl⟩⟩

/-- Source `keg/cdn.py`, `CacheableCDNWrapper.__init__`: wraps a `LocalCDN`
over the base directory and a `RemoteCDN` built from the CDNs response. -/
structure CacheableCDNWrapper where
  local_cdn : LocalCDN
  remote_cdn : RemoteCDN
deriving Repr, DecidableEq

/-- Source `keg/cdn.py`, `CacheableCDNWrapper.__init__` (the directory
creation has no observable effect in the flat-map filesystem model). -/
def CacheableCDNWrapper.init (cdns_response : CDNDescriptor) (base_dir : String) :
    Option CacheableCDNWrapper :=
  (RemoteCDN.init cdns_response).map
    (fun r => { local_cdn := { base_dir := base_dir }, remote_cdn := r })

/-- The world visible to the caching CDN: the local filesystem plus the
network. -/
structure World where
  localFS : FS
  net : Net
deriving Repr, DecidableEq

/-- Source `keg/cdn.py`, `CacheableCDNWrapper.get_item`: if the local copy
does not exist, fetch the remote stream and pipe it through
`HTTPCacheWrapper` (constructed then immediately closed, which drains the
whole body to the cache file); always return the local copy afterwards. -/
def CacheableCDNWrapper.get_item (w : CacheableCDNWrapper) (world : World)
    (path : String) : Option Bytes × World :=
  let world' : World :=
    if w.local_cdn.exists' world.localFS path then world
    else
      let cache_file_path := w.local_cdn.get_full_path path
      let fetched := w.remote_cdn.get_item path world.net
      let i := HTTPCacheWrapper.init fetched.1 cache_file_path world.localFS
      let cl := HTTPCacheWrapper.close i.1 i.2
      { localFS := cl.2, net := fetched.2 }
  (w.local_cdn.get_item world'.localFS path, world')

/-- Source `keg/cdn.py`, `CacheableCDNWrapper.has_config`: local existence
of `/config/{partition_hash(key)}`; a pure function of the local
filesystem, touching no network state. -/
def CacheableCDNWrapper.has_config (w : CacheableCDNWrapper) (fs : FS) (key : String) :
    Bool :=
  w.local_cdn.exists' fs ("/config/" ++ partition_hash key)

/-- Source `keg/cdn.py`, `CacheableCDNWrapper.has_data`: local existence of
`/data/{partition_hash(key)}`. -/
def CacheableCDNWrapper.has_data (w : CacheableCDNWrapper) (fs : FS) (key : String) :
    Bool :=
  w.local_cdn.exists' fs ("/data/" ++ partition_hash key)

/-- Source `keg/cdn.py`, `CacheableCDNWrapper.has_index`: local existence of
`/data/{partition_hash(key)}.index`. -/
def CacheableCDNWrapper.has_index (w : CacheableCDNWrapper) (fs : FS) (key : String) :
    Bool :=
  w.local_cdn.exists' fs ("/data/" ++ partition_hash key ++ ".index")

theorem pyLstripSlash_config_append (x : String) :
    pyLstripSlash ("/config/" ++ x) = "config/" ++ x := by
  apply String.ext
  show (("/config/" ++ x).data.dropWhile (fun c => decide (c = '/'))) = ("config/" ++ x).data
  rw [String.data_append, String.data_append]
  rfl

theorem pyLstripSlash_data_append (x : String) :
    pyLstripSlash ("/data/" ++ x) = "data/" ++ x := by
  apply String.ext
  show (("/data/" ++ x).data.dropWhile (fun c => decide (c = '/'))) = ("data/" ++ x).data
  rw [String.data_append, String.data_append]
  rfl

/-- C8: `has_config`, `has_data` and `has_index` return exactly the local
existence of the files at `config/{partition_hash key}`,
`data/{partition_hash key}` and `data/{partition_hash key}.index` under the
base directory; they are pure functions of the local filesystem alone, so no
network I/O can occur (the network state is not even an input). -/
theorem caching_cdn_has_checks_local (w : CacheableCDNWrapper) (fs : FS) (key : String) :
    (w.has_config fs key
      = (assocGet fs
          (osPathJoin w.local_cdn.base_dir ("config/" ++ partition_hash key))).isSome)
    ∧ (w.has_data fs key
      = (assocGet fs
          (osPathJoin w.local_cdn.base_dir ("data/" ++ partition_hash key))).isSome)
    ∧ (w.has_index fs key
      = (assocGet fs
          (osPathJoin w.local_cdn.base_dir
            ("data/" ++ (partition_hash key ++ ".index")))).isSome) := by
  refine ⟨?_, ?_, ?_⟩
  · simp [CacheableCDNWrapper.has_config, LocalCDN.exists', LocalCDN.get_full_path,
      pyLstripSlash_config_append]
  · simp [CacheableCDNWrapper.has_data, LocalCDN.exists', LocalCDN.get_full_path,
      pyLstripSlash_data_append]
  · simp [CacheableCDNWrapper.has_index, LocalCDN.exists', LocalCDN.get_full_path,
      String.append_assoc, pyLstripSlash_data_append]

/-- C3: if a path is absent from the local cache, two consecutive
`get_item` calls on the caching CDN return the same bytes (both return the
local copy, which the first call populated from the remote body), the
result is a hit (`some`), and exactly one remote GET is issued across the
two calls. -/
theorem caching_cdn_get_item_idempotent (w : CacheableCDNWrapper) (world : World)
    (p : String) (h : w.local_cdn.exists' world.localFS p = false) :
    (CacheableCDNWrapper.get_item w world p).1
      = (CacheableCDNWrapper.get_item w (CacheableCDNWrapper.get_item w world p).2 p).1
    ∧ (∃ b, (CacheableCDNWrapper.get_item w world p).1 = some b)
    ∧ (CacheableCDNWrapper.get_item w
        (CacheableCDNWrapper.get_item w world p).2 p).2.net.requests.length
      = world.net.requests.length + 1 := by
  have hne := keg_temp_ne (w.local_cdn.get_full_path p)
  have hinit : assocGet
      (HTTPCacheWrapper.init (w.remote_cdn.get_item p world.net).1
        (w.local_cdn.get_full_path p) world.localFS).2
      (HTTPCacheWrapper.init (w.remote_cdn.get_item p world.net).1
        (w.local_cdn.get_full_path p) world.localFS).1.temp_path = some [] := by
    simp [HTTPCacheWrapper.init, assocGet_set_same]
  obtain ⟨c1, c2, c3, c4, c5⟩ := HTTPCacheWrapper.close_spec
      (HTTPCacheWrapper.init (w.remote_cdn.get_item p world.net).1
        (w.local_cdn.get_full_path p) world.localFS).1
      (HTTPCacheWrapper.init (w.remote_cdn.get_item p world.net).1
        (w.local_cdn.get_full_path p) world.localFS).2 [] hinit hne
  have hreal : (HTTPCacheWrapper.init (w.remote_cdn.get_item p world.net).1
      (w.local_cdn.get_full_path p) world.localFS).1.real_path
      = w.local_cdn.get_full_path p := rfl
  have hobj : (HTTPCacheWrapper.init (w.remote_cdn.get_item p world.net).1
      (w.local_cdn.get_full_path p) world.localFS).1.obj_remaining
      = (w.remote_cdn.get_item p world.net).1 := rfl
  rw [hreal, hobj] at c1
  simp only [List.nil_append] at c1
  have hstep1 : CacheableCDNWrapper.get_item w world p
      = (some (w.remote_cdn.get_item p world.net).1,
         { localFS := (HTTPCacheWrapper.close
             (HTTPCacheWrapper.init (w.remote_cdn.get_item p world.net).1
               (w.local_cdn.get_full_path p) world.localFS).1
             (HTTPCacheWrapper.init (w.remote_cdn.get_item p world.net).1
               (w.local_cdn.get_full_path p) world.localFS).2).2,
           net := (w.remote_cdn.get_item p world.net).2 }) := by
    unfold CacheableCDNWrapper.get_item
    rw [if_neg (by simp [h])]
    simp only [LocalCDN.get_item]
    rw [c1]
  have hstep2 : CacheableCDNWrapper.get_item w
      { localFS := (HTTPCacheWrapper.close
          (HTTPCacheWrapper.init (w.remote_cdn.get_item p world.net).1
            (w.local_cdn.get_full_path p) world.localFS).1
          (HTTPCacheWrapper.init (w.remote_cdn.get_item p world.net).1
            (w.local_cdn.get_full_path p) world.localFS).2).2,
        net := (w.remote_cdn.get_item p world.net).2 } p
      = (some (w.remote_cdn.get_item p world.net).1,
         { localFS := (HTTPCacheWrapper.close
             (HTTPCacheWrapper.init (w.remote_cdn.get_item p world.net).1
               (w.local_cdn.get_full_path p) world.localFS).1
             (HTTPCacheWrapper.init (w.remote_cdn.get_item p world.net).1
               (w.local_cdn.get_full_path p) world.localFS).2).2,
           net := (w.remote_cdn.get_item p world.net).2 }) := by
    unfold CacheableCDNWrapper.get_item
    rw [if_pos (by simp [LocalCDN.exists', c1])]
    simp only [LocalCDN.get_item]
    rw [c1]
  rw [hstep1, hstep2]
  refine ⟨rfl, ⟨_, rfl⟩, ?_⟩
  simp [RemoteCDN.get_item]

theorem caching_cdn_get_item_idempotent_witness :
    LocalCDN.exists'
        (CacheableCDNWrapper.local_cdn ⟨⟨"c"⟩, ⟨"http://s", "tpr/"⟩⟩)
        ([] : FS) "/x" = false
    ∧ ((CacheableCDNWrapper.get_item ⟨⟨"c"⟩, ⟨"http://s", "tpr/"⟩⟩
          ⟨[], ⟨[("http://s/tpr//x", [7, 8])], []⟩⟩ "/x").1
        = (CacheableCDNWrapper.get_item ⟨⟨"c"⟩, ⟨"http://s", "tpr/"⟩⟩
            (CacheableCDNWrapper.get_item ⟨⟨"c"⟩, ⟨"http://s", "tpr/"⟩⟩
              ⟨[], ⟨[("http://s/tpr//x", [7, 8])], []⟩⟩ "/x").2 "/x").1
      ∧ (∃ b, (CacheableCDNWrapper.get_item ⟨⟨"c"⟩, ⟨"http://s", "tpr/"⟩⟩
          ⟨[], ⟨[("http://s/tpr//x", [7, 8])], []⟩⟩ "/x").1 = some b)
      ∧ (CacheableCDNWrapper.get_item ⟨⟨"c"⟩, ⟨"http://s", "tpr/"⟩⟩
          (CacheableCDNWrapper.get_item ⟨⟨"c"⟩, ⟨"http://s", "tpr/"⟩⟩
            ⟨[], ⟨[("http://s/tpr//x", [7, 8])], []⟩⟩ "/x").2 "/x").2.net.requests.length
        = (⟨[], ⟨[("http://s/tpr//x", [7, 8])], []⟩⟩ : World).net.requests.length + 1) :=
  ⟨rfl, caching_cdn_get_item_idempotent ⟨⟨"c"⟩, ⟨"http://s", "tpr/"⟩⟩
    ⟨[], ⟨[("http://s/tpr//x", [7, 8])], []⟩⟩ "/x" rfl⟩

/-- A parsed tabular (PSV) response: the declared header columns and the
data rows; iterating the file yields the rows in order. -/
structure PSVFile where
  header : List String
  rows : List (List String)
deriving Repr, DecidableEq

/-- Response metadata as used by `Keg.get_psv`: the timestamp and the
content digest of the fetched blob. -/
structure Response where
  timestamp : Nat
  digest : String
deriving Repr, DecidableEq

/-- One record of the `responses` table:
`(remote, path, timestamp, digest, source)`. The schema (spec section 6)
declares no uniqueness constraint, so SQL `INSERT` appends. -/
structure ResponseRec where
  remote : String
  path : String
  timestamp : Nat
  digest : String
  source : Nat
deriving Repr, DecidableEq

/-- One row of a dynamically named tabular table: `(remote, key, row)` plus
the header columns, in header order. -/
structure TableRow where
  remote : String
  key : String
  row : Nat
  cols : List String
deriving Repr, DecidableEq

/-- The relational store: the `responses` table and the dynamically named
per-path tables. -/
structure DB where
  responses : List ResponseRec
  tables : Assoc String (List TableRow)
deriving Repr, DecidableEq

/-- The orchestrator state: its remote name, the relational store, the
on-disk state cache keyed by `(path, digest)` and the number of live HTTP
fetches performed so far. -/
structure KegState where
  remote : String
  db : DB
  stateCache : Assoc (String × String) PSVFile
  requests : Nat
deriving Repr, DecidableEq

/-- The rows `get_psv` inserts for a fetched tabular file: each data row
tagged `(remote, digest, ordinal)` (Python `enumerate`). -/
def taggedRows (remote digest : String) (psvfile : PSVFile) : List TableRow :=
  psvfile.rows.enum.map
    (fun e => { remote := remote, key := digest, row := e.1, cols := e.2 })

/-- Source `keg/__init__.py`, `Keg.get_psv`: the live fetch
(`super().get_psv`, outside `src/`) yields `psvfile` and `resp` and counts
as one HTTP request; `response.write_to_cache` (outside `src/`) is
modelled from the spec as recording the tabular blob under
`(path, digest)`. Then, against the relational store: delete the rows of
the table named `path.strip("/")` matching `(remote, digest)`, insert the
freshly fetched rows tagged `(remote, digest, ordinal)`, append the
response record `(remote, path, timestamp, digest, source=HTTP)` and
commit. -/
def Keg.get_psv (st : KegState) (path : String) (psvfile : PSVFile) (resp : Response) :
    PSVFile × Response × KegState :=
  let cache' := assocSet st.stateCache (path, resp.digest) psvfile
  let table_name := pyStripSlash path
  let kept := ((assocGet st.db.tables table_name).getD []).filter
    (fun r => decide (¬(r.remote = st.remote ∧ r.key = resp.digest)))
  let tables' := assocSet st.db.tables table_name
    (kept ++ taggedRows st.remote resp.digest psvfile)
  let responses' := st.db.responses ++
    [{ remote := st.remote, path := path, timestamp := resp.timestamp,
       digest := resp.digest, source := 1 }]
  (psvfile, resp,
   { st with
       db := { responses := responses', tables := tables' },
       stateCache := cache',
       requests := st.requests + 1 })

/-- The rows of a table that belong to a `(remote, digest)` pair. -/
def rowsFor (tables : Assoc String (List TableRow)) (name remote digest : String) :
    List TableRow :=
  ((assocGet tables name).getD []).filter
    (fun r => decide (r.remote = remote ∧ r.key = digest))

/-- The response records of a `(remote, path)` pair. -/
def responsesFor (db : DB) (remote path : String) : List ResponseRec :=
  db.responses.filter (fun r => decide (r.remote = remote ∧ r.path = path))

theorem mem_taggedRows {remote digest : String} {psv : PSVFile} {a : TableRow}
    (h : a ∈ taggedRows remote digest psv) : a.remote = remote ∧ a.key = digest := by
  simp only [taggedRows, List.mem_map] at h
  obtain ⟨e, _, rfl⟩ := h
  exact ⟨rfl, rfl⟩

theorem filter_match_eq_nil_of (l : List TableRow) (r d : String)
    (h : ∀ a ∈ l, ¬(a.remote = r ∧ a.key = d)) :
    l.filter (fun x => decide (x.remote = r ∧ x.key = d)) = [] := by
  rw [List.filter_eq_nil_iff]
  intro a ha
  simpa using h a ha

theorem filter_match_taggedRows_self (r d : String) (psv : PSVFile) :
    (taggedRows r d psv).filter (fun x => decide (x.remote = r ∧ x.key = d))
      = taggedRows r d psv := by
  rw [List.filter_eq_self]
  intro a ha
  obtain ⟨h1, h2⟩ := mem_taggedRows ha
  simp [h1, h2]

theorem filter_keep_taggedRows_ne (r d d' : String) (psv : PSVFile) (h : d ≠ d') :
    (taggedRows r d psv).filter (fun x => decide (¬(x.remote = r ∧ x.key = d')))
      = taggedRows r d psv := by
  rw [List.filter_eq_self]
  intro a ha
  obtain ⟨_, h2⟩ := mem_taggedRows ha
  simp [h2, h]

theorem keep_then_match_nil (l : List TableRow) (r d : String) :
    (l.filter (fun x => decide (¬(x.remote = r ∧ x.key = d)))).filter
      (fun x => decide (x.remote = r ∧ x.key = d)) = [] := by
  apply filter_match_eq_nil_of
  intro a ha
  have h2 := (List.mem_filter.mp ha).2
  simp only [decide_eq_true_eq] at h2
  exact h2

theorem keg_get_psv_tables_eq (st : KegState) (path : String) (psv : PSVFile)
    (t : Nat) (d : String) :
    assocGet (Keg.get_psv st path psv ⟨t, d⟩).2.2.db.tables (pyStripSlash path)
      = some ((((assocGet st.db.tables (pyStripSlash path)).getD []).filter
            (fun r => decide (¬(r.remote = st.remote ∧ r.key = d))))
          ++ taggedRows st.remote d psv) := by
  simp [Keg.get_psv, assocGet_set_same]

/-- C1 (amended): fetching the same tabular path twice through `get_psv`
appends one response record per fetch (the `responses` table is append-only,
so a same-digest refetch leaves two records for that `(remote, path)`, one
per fetch, not one); with two different digests the two row sets in the
table named for the path are independent (each digest keeps exactly its own
fetch's rows); with the same digest the second row set fully replaces the
first (delete-then-insert). -/
theorem keg_get_psv_upsert (st : KegState) (path : String)
    (psv1 psv2 : PSVFile) (t1 t2 : Nat) (d1 d2 : String) :
    (Keg.get_psv (Keg.get_psv st path psv1 ⟨t1, d1⟩).2.2 path psv2 ⟨t2, d2⟩).2.2.db.responses
      = st.db.responses
        ++ [{ remote := st.remote, path := path, timestamp := t1, digest := d1, source := 1 },
            { remote := st.remote, path := path, timestamp := t2, digest := d2, source := 1 }]
    ∧ (d1 ≠ d2 →
        rowsFor (Keg.get_psv (Keg.get_psv st path psv1 ⟨t1, d1⟩).2.2 path psv2
            ⟨t2, d2⟩).2.2.db.tables (pyStripSlash path) st.remote d1
          = taggedRows st.remote d1 psv1
        ∧ rowsFor (Keg.get_psv (Keg.get_psv st path psv1 ⟨t1, d1⟩).2.2 path psv2
            ⟨t2, d2⟩).2.2.db.tables (pyStripSlash path) st.remote d2
          = taggedRows st.remote d2 psv2)
    ∧ (d1 = d2 →
        rowsFor (Keg.get_psv (Keg.get_psv st path psv1 ⟨t1, d1⟩).2.2 path psv2
            ⟨t2, d2⟩).2.2.db.tables (pyStripSlash path) st.remote d1
          = taggedRows st.remote d2 psv2) := by
  have h1 := keg_get_psv_tables_eq st path psv1 t1 d1
  have h2 := keg_get_psv_tables_eq (Keg.get_psv st path psv1 ⟨t1, d1⟩).2.2 path psv2 t2 d2
  rw [h1] at h2
  simp only [Option.getD_some] at h2
  have hrem : (Keg.get_psv st path psv1 ⟨t1, d1⟩).2.2.remote = st.remote := rfl
  rw [hrem] at h2
  refine ⟨?_, ?_, ?_⟩
  · simp [Keg.get_psv]
  · intro hne
    constructor
    · unfold rowsFor
      rw [h2]
      simp only [Option.getD_some, List.filter_append]
      rw [List.filter_comm]
      rw [keep_then_match_nil]
      rw [filter_keep_taggedRows_ne _ _ _ _ hne, filter_match_taggedRows_self]
      rw [filter_match_eq_nil_of (taggedRows st.remote d2 psv2) st.remote d1 ?hmem]
      case hmem =>
        intro a ha
        obtain ⟨_, hk⟩ := mem_taggedRows ha
        rintro ⟨-, hk1⟩
        exact hne (hk.symm.trans hk1).symm
      simp
    · unfold rowsFor
      rw [h2]
      simp only [Option.getD_some, List.filter_append]
      rw [keep_then_match_nil, keep_then_match_nil, filter_match_taggedRows_self]
      simp
  · intro heq
    subst heq
    unfold rowsFor
    rw [h2]
    simp only [Option.getD_some, List.filter_append]
    rw [keep_then_match_nil, keep_then_match_nil, filter_match_taggedRows_self]
    simp

/-- The C1 claim as stated is false: from an empty store, fetching
`"/cdns"` twice with the same digest `"d1"` leaves two response records in
the `responses` table (the second `INSERT` appends; nothing deletes the
first), not exactly one. -/
theorem keg_get_psv_single_record_false :
    ¬((responsesFor
        (Keg.get_psv (Keg.get_psv
            { remote := "r1", db := { responses := [], tables := [] },
              stateCache := [], requests := 0 }
          "/cdns" { header := ["Name"], rows := [["a"]] } { timestamp := 1, digest := "d1" }).2.2
          "/cdns" { header := ["Name"], rows := [["b"]] }
          { timestamp := 2, digest := "d1" }).2.2.db
        "r1" "/cdns").length = 1) := by
  decide

theorem keg_get_psv_upsert_witness :
    (Keg.get_psv (Keg.get_psv
          { remote := "r1", db := { responses := [], tables := [] },
            stateCache := [], requests := 0 }
        "/cdns" { header := ["Name"], rows := [["a"]] } { timestamp := 1, digest := "d1" }).2.2
        "/cdns" { header := ["Name"], rows := [["b"]] }
        { timestamp := 2, digest := "d2" }).2.2.db.responses
      = [{ remote := "r1", path := "/cdns", timestamp := 1, digest := "d1", source := 1 },
         { remote := "r1", path := "/cdns", timestamp := 2, digest := "d2", source := 1 }]
    ∧ rowsFor (Keg.get_psv (Keg.get_psv
          { remote := "r1", db := { responses := [], tables := [] },
            stateCache := [], requests := 0 }
        "/cdns" { header := ["Name"], rows := [["a"]] } { timestamp := 1, digest := "d1" }).2.2
        "/cdns" { header := ["Name"], rows := [["b"]] }
        { timestamp := 2, digest := "d2" }).2.2.db.tables (pyStripSlash "/cdns") "r1" "d1"
      = taggedRows "r1" "d1" { header := ["Name"], rows := [["a"]] }
    ∧ rowsFor (Keg.get_psv (Keg.get_psv
          { remote := "r1", db := { responses := [], tables := [] },
            stateCache := [], requests := 0 }
        "/cdns" { header := ["Name"], rows := [["a"]] } { timestamp := 1, digest := "d1" }).2.2
        "/cdns" { header := ["Name"], rows := [["b"]] }
        { timestamp := 2, digest := "d2" }).2.2.db.tables (pyStripSlash "/cdns") "r1" "d2"
      = taggedRows "r1" "d2" { header := ["Name"], rows := [["b"]] }
    ∧ rowsFor (Keg.get_psv (Keg.get_psv
          { remote := "r1", db := { responses := [], tables := [] },
            stateCache := [], requests := 0 }
        "/cdns" { header := ["Name"], rows := [["a"]] } { timestamp := 1, digest := "d" }).2.2
        "/cdns" { header := ["Name"], rows := [["b"]] }
        { timestamp := 2, digest := "d" }).2.2.db.tables (pyStripSlash "/cdns") "r1" "d"
      = taggedRows "r1" "d" { header := ["Name"], rows := [["b"]] } := by
  have hA := keg_get_psv_upsert
    { remote := "r1", db := { responses := [], tables := [] },
      stateCache := [], requests := 0 }
    "/cdns" { header := ["Name"], rows := [["a"]] } { header := ["Name"], rows := [["b"]] }
    1 2 "d1" "d2"
  have hB := keg_get_psv_upsert
    { remote := "r1", db := { responses := [], tables := [] },
      stateCache := [], requests := 0 }
    "/cdns" { header := ["Name"], rows := [["a"]] } { header := ["Name"], rows := [["b"]] }
    1 2 "d" "d"
  exact ⟨hA.1.trans (by decide), (hA.2.1 (by decide)).1, (hA.2.1 (by decide)).2,
    hB.2.2 rfl⟩

/-- Fold step for `ORDER BY timestamp DESC LIMIT 1`: keep the record with
the strictly larger timestamp (the first maximum wins on ties, which SQL
leaves unspecified). -/
def betterResp (acc : Option ResponseRec) (r : ResponseRec) : Option ResponseRec :=
  match acc with
  | none => some r
  | some best => if best.timestamp < r.timestamp then some r else some best

/-- Source `keg/__init__.py`, the `SELECT digest FROM responses WHERE
remote = ? AND path = ? ORDER BY timestamp DESC LIMIT 1` query in
`get_cached_cdns`: among the matching records, one with maximal
timestamp (or `none` when no record matches). -/
def mostRecentResponse (rs : List ResponseRec) (remote path : String) :
    Option ResponseRec :=
  (rs.filter (fun r => decide (r.remote = remote ∧ r.path = path))).foldl betterResp none

theorem betterResp_isSome (acc : Option ResponseRec) (r : ResponseRec) :
    (betterResp acc r).isSome = true := by
  cases acc with
  | none => rfl
  | some best =>
    simp only [betterResp]
    by_cases h : best.timestamp < r.timestamp
    · rw [if_pos h]
      rfl
    · rw [if_neg h]
      rfl

theorem foldl_betterResp_isSome (l : List ResponseRec) :
    ∀ acc : Option ResponseRec, acc.isSome = true →
      (l.foldl betterResp acc).isSome = true := by
  induction l with
  | nil => intro acc h; simpa using h
  | cons x xs ih =>
    intro acc _
    rw [List.foldl_cons]
    exact ih (betterResp acc x) (betterResp_isSome acc x)

theorem betterResp_le (acc : Option ResponseRec) (r b : ResponseRec)
    (h : betterResp acc r = some b) :
    r.timestamp ≤ b.timestamp ∧ ∀ a, acc = some a → a.timestamp ≤ b.timestamp := by
  cases acc with
  | none =>
    simp only [betterResp] at h
    cases h
    exact ⟨Nat.le_refl _, fun a ha => by cases ha⟩
  | some best =>
    simp only [betterResp] at h
    by_cases hlt : best.timestamp < r.timestamp
    · rw [if_pos hlt] at h
      cases h
      exact ⟨Nat.le_refl _, fun a ha => by cases ha; exact Nat.le_of_lt hlt⟩
    · rw [if_neg hlt] at h
      cases h
      exact ⟨Nat.le_of_not_lt hlt, fun a ha => by cases ha; exact Nat.le_refl _⟩

theorem foldl_betterResp_spec (l : List ResponseRec) :
    ∀ (acc : Option ResponseRec) (r : ResponseRec),
      l.foldl betterResp acc = some r →
      (r ∈ l ∨ acc = some r)
      ∧ (∀ x ∈ l, x.timestamp ≤ r.timestamp)
      ∧ (∀ b, acc = some b → b.timestamp ≤ r.timestamp) := by
  induction l with
  | nil =>
    intro acc r h
    simp only [List.foldl_nil] at h
    exact ⟨Or.inr h, fun x hx => absurd hx (List.not_mem_nil x),
      fun b hb => by rw [hb] at h; cases h; exact Nat.le_refl _⟩
  | cons x xs ih =>
    intro acc r h
    rw [List.foldl_cons] at h
    obtain ⟨g1, g2, g3⟩ := ih (betterResp acc x) r h
    have hx : x.timestamp ≤ r.timestamp := by
      obtain ⟨c, hc⟩ := Option.isSome_iff_exists.mp (betterResp_isSome acc x)
      obtain ⟨hb1, _⟩ := betterResp_le acc x c hc
      exact Nat.le_trans hb1 (g3 c hc)
    refine ⟨?_, ?_, ?_⟩
    · rcases g1 with hmem | hstep
      · exact Or.inl (List.mem_cons_of_mem x hmem)
      · cases hacc : acc with
        | none =>
          rw [hacc] at hstep
          simp only [betterResp] at hstep
          cases hstep
          exact Or.inl (List.mem_cons_self _ _)
        | some best =>
          rw [hacc] at hstep
          simp only [betterResp] at hstep
          by_cases hlt : best.timestamp < x.timestamp
          · rw [if_pos hlt] at hstep
            cases hstep
            exact Or.inl (List.mem_cons_self _ _)
          · rw [if_neg hlt] at hstep
            cases hstep
            exact Or.inr rfl
    · intro y hy
      rcases List.mem_cons.mp hy with rfl | hmem
      · exact hx
      · exact g2 y hmem
    · intro b hb
      have hstep : ∃ c, betterResp acc x = some c ∧ b.timestamp ≤ c.timestamp := by
        rw [hb]
        simp only [betterResp]
        by_cases hlt : b.timestamp < x.timestamp
        · exact ⟨x, by rw [if_pos hlt], Nat.le_of_lt hlt⟩
        · exact ⟨b, by rw [if_neg hlt], Nat.le_refl _⟩
      obtain ⟨c, hc, hbc⟩ := hstep
      exact Nat.le_trans hbc (g3 c hc)

/-- A CDN-list entry built from one tabular row (`CDNs(row)` from
`keg/http.py`, outside `src/`; modelled from the spec as a view over the
row). -/
structure CDNs where
  row : List String
deriving Repr, DecidableEq

/-- Source `keg/__init__.py`, `Keg.get_cached_psv`. Modelled from the spec:
`StateCache(cache_dir).read(path, key)` and the external tabular parser
live outside `src/`; the disk cache is modelled as the map from
`(path, digest)` to the parsed tabular file that `get_psv` writes, and a
missing entry is a read failure (`none`). -/
def Keg.get_cached_psv (st : KegState) (path key : String) : Option PSVFile :=
  assocGet st.stateCache (path, key)

/-- Modelled from the spec: `HttpBackend.get_cdns` (outside `src/`) performs
one live tabular fetch of `"/cdns"` — here routed through `Keg.get_psv`,
which also caches and indexes it — and returns its rows as CDN entries.
The live server's response is supplied as `live_psv`/`live_resp`. -/
def Keg.get_cdns (st : KegState) (live_psv : PSVFile) (live_resp : Response) :
    List CDNs × KegState :=
  let r := Keg.get_psv st "/cdns" live_psv live_resp
  (r.1.rows.map CDNs.mk, r.2.2)

/-- Source `keg/__init__.py`, `Keg.get_cached_cdns`: run the
most-recent-response query for `(remote, "/cdns")`; with no matching record
fall back to the live `get_cdns`; otherwise rebuild the CDN list from the
cached tabular blob of the selected record's digest, touching no network
state. -/
def Keg.get_cached_cdns (st : KegState) (remote : String)
    (live_psv : PSVFile) (live_resp : Response) : Option (List CDNs) × KegState :=
  match mostRecentResponse st.db.responses remote "/cdns" with
  | none =>
    let r := Keg.get_cdns st live_psv live_resp
    (some r.1, r.2)
  | some rec0 =>
    ((Keg.get_cached_psv st "/cdns" rec0.digest).map (fun p => p.rows.map CDNs.mk), st)

/-- C5: when the relational store holds at least one response record for
`(remote, "/cdns")`, the query returns one, and `get_cached_cdns` returns
the CDN list rebuilt from the cached tabular blob of a most-recent matching
record (its timestamp dominates every matching record) while leaving the
whole state — in particular the request counter — untouched (zero network
calls); when no record matches, it performs exactly one live tabular fetch
and returns that fetch's rows. -/
theorem keg_get_cached_cdns_cache_first (st : KegState) (remote : String)
    (live_psv : PSVFile) (live_resp : Response) (r : ResponseRec) (p : PSVFile) :
    (responsesFor st.db remote "/cdns" ≠ [] →
      (mostRecentResponse st.db.responses remote "/cdns").isSome = true)
    ∧ (mostRecentResponse st.db.responses remote "/cdns" = some r →
        (r.remote = remote ∧ r.path = "/cdns"
          ∧ ∀ x ∈ responsesFor st.db remote "/cdns", x.timestamp ≤ r.timestamp)
        ∧ (Keg.get_cached_psv st "/cdns" r.digest = some p →
            Keg.get_cached_cdns st remote live_psv live_resp
              = (some (p.rows.map CDNs.mk), st)))
    ∧ (mostRecentResponse st.db.responses remote "/cdns" = none →
        (Keg.get_cached_cdns st remote live_psv live_resp).1
            = some (live_psv.rows.map CDNs.mk)
        ∧ (Keg.get_cached_cdns st remote live_psv live_resp).2.requests
            = st.requests + 1) := by
  refine ⟨?_, ?_, ?_⟩
  · intro hne
    unfold mostRecentResponse
    cases hm : st.db.responses.filter
        (fun x => decide (x.remote = remote ∧ x.path = "/cdns")) with
    | nil => exact absurd hm hne
    | cons y ys =>
      rw [List.foldl_cons]
      exact foldl_betterResp_isSome ys (betterResp none y) (betterResp_isSome none y)
  · intro hsel
    have hspec := foldl_betterResp_spec
      (st.db.responses.filter (fun x => decide (x.remote = remote ∧ x.path = "/cdns")))
      none r hsel
    obtain ⟨hmem | habs, hmax, _⟩ := hspec
    · have hm := List.mem_filter.mp hmem
      have hprop : r.remote = remote ∧ r.path = "/cdns" := by
        have := hm.2
        simpa using this
      refine ⟨⟨hprop.1, hprop.2, hmax⟩, ?_⟩
      intro hcache
      unfold Keg.get_cached_cdns
      rw [hsel]
      show ((Keg.get_cached_psv st "/cdns" r.digest).map (fun q => q.rows.map CDNs.mk), st)
        = (some (p.rows.map CDNs.mk), st)
      rw [hcache]
      rfl
    · cases habs
  · intro hnone
    unfold Keg.get_cached_cdns
    rw [hnone]
    exact ⟨rfl, rfl⟩

theorem keg_get_cached_cdns_cache_first_witness :
    (responsesFor
        { responses := [{ remote := "r1", path := "/cdns", timestamp := 5, digest := "dd", source := 1 }], tables := [] }
        "r1" "/cdns" ≠ []
      → (mostRecentResponse
          [{ remote := "r1", path := "/cdns", timestamp := 5, digest := "dd", source := 1 }]
          "r1" "/cdns").isSome = true)
    ∧ (Keg.get_cached_cdns
        { remote := "r1",
          db := { responses := [{ remote := "r1", path := "/cdns", timestamp := 5, digest := "dd", source := 1 }], tables := [] },
          stateCache := [(("/cdns", "dd"), { header := ["Name"], rows := [["n1"], ["n2"]] })],
          requests := 0 } "r1"
        { header := ["Name"], rows := [["live"]] } { timestamp := 9, digest := "dl" }
      = (some ([["n1"], ["n2"]].map CDNs.mk),
         { remote := "r1",
           db := { responses := [{ remote := "r1", path := "/cdns", timestamp := 5, digest := "dd", source := 1 }], tables := [] },
           stateCache := [(("/cdns", "dd"), { header := ["Name"], rows := [["n1"], ["n2"]] })],
           requests := 0 }))
    ∧ ((Keg.get_cached_cdns
          { remote := "r2", db := { responses := [], tables := [] }, stateCache := [], requests := 0 } "r2"
          { header := ["Name"], rows := [["live"]] } { timestamp := 9, digest := "dl" }).1
        = some ([["live"]].map CDNs.mk)
      ∧ (Keg.get_cached_cdns
          { remote := "r2", db := { responses := [], tables := [] }, stateCache := [], requests := 0 } "r2"
          { header := ["Name"], rows := [["live"]] } { timestamp := 9, digest := "dl" }).2.requests
        = 0 + 1) := by
  have hA := keg_get_cached_cdns_cache_first
    { remote := "r1",
      db := { responses := [{ remote := "r1", path := "/cdns", timestamp := 5, digest := "dd", source := 1 }], tables := [] },
      stateCache := [(("/cdns", "dd"), { header := ["Name"], rows := [["n1"], ["n2"]] })],
      requests := 0 } "r1"
    { header := ["Name"], rows := [["live"]] } { timestamp := 9, digest := "dl" }
    { remote := "r1", path := "/cdns", timestamp := 5, digest := "dd", source := 1 }
    { header := ["Name"], rows := [["n1"], ["n2"]] }
  have hB := keg_get_cached_cdns_cache_first
    { remote := "r2", db := { responses := [], tables := [] }, stateCache := [], requests := 0 } "r2"
    { header := ["Name"], rows := [["live"]] } { timestamp := 9, digest := "dl" }
    { remote := "r2", path := "/cdns", timestamp := 0, digest := "x", source := 1 }
    { header := [], rows := [] }
  exact ⟨hA.1, ((hA.2.1 (by decide)).2 (by decide)), hB.2.2 (by decide)⟩
